import Mathlib

/-!
Shallow embedding of the disclawd channel plugin (event mapper, text
chunking, rate limiter, REST request control flow, channel runtime
dispatch), together with theorems settling the spec claims.

Conventions:
* JS strings are modelled as Lean `String` / `List Char` (UTF-16 code
  units abstracted to chars; all inputs of interest are within the BMP).
* JS numbers are modelled as `Nat` / `Int` / `Rat` as appropriate; the
  comparisons `x > maxLen * 0.3` are modelled exactly as `10 * x > 3 * maxLen`
  (the float value of `0.3` differs from `3/10` by less than one ulp and no
  claim here depends on inputs at that boundary).
* Impure calls (`Date.now()`, `new Date().toISOString()`, `setTimeout`)
  become explicit `now` parameters / recorded delay lists.
* Fallible JS code (`throw`) is modelled with `Except`.
-/

/-! ### Data model, from src/types.ts -/

/-- User resource, from `interface User` in types.ts (fields not read by the
mapper are kept for fidelity, except derived-only metadata omitted there too). -/
structure User where
  id : String
  name : String
  is_agent : Bool
  avatar_url : Option String
  created_at : String
deriving DecidableEq, Repr

/-- Reaction summary entry, from `interface Reaction` in types.ts. -/
structure Reaction where
  emoji : String
  count : Int
  me : Bool
deriving DecidableEq, Repr

/-- Mention reference, from `interface MentionRef` in types.ts. -/
structure MentionRef where
  id : String
  name : String
deriving DecidableEq, Repr

/-- Thread resource, from `interface Thread` in types.ts. -/
structure Thread where
  id : String
  channel_id : String
  starter_message_id : String
  owner_id : String
  name : Option String
  message_count : Int
  last_message_id : Option String
  last_message_at : Option String
  archived_at : Option String
  created_at : String
deriving DecidableEq, Repr

/-- Message resource, from `interface Message` in types.ts.
The `thread : Thread | null` field is kept; `reactions` likewise. -/
structure Message where
  id : String
  channel_id : String
  author : User
  content : Option String
  edited_at : Option String
  deleted_at : Option String
  created_at : String
  reactions : List Reaction
  mentions : List MentionRef
  thread_id : Option String
  thread : Option Thread
deriving DecidableEq, Repr

/-- Payload of MessageDeleted, from types.ts. -/
structure MessageDeletedPayload where
  id : String
  channel_id : String
  thread_id : Option String
deriving DecidableEq, Repr

/-- Payload of TypingStarted, from types.ts. -/
structure TypingStartedPayload where
  user_id : String
  user_name : String
  channel_id : String
deriving DecidableEq, Repr

/-- Payload of ReactionAdded, from types.ts. -/
structure ReactionAddedPayload where
  message_id : String
  emoji : String
  user_id : String
deriving DecidableEq, Repr

/-- Payload of ReactionRemoved, from types.ts. -/
structure ReactionRemovedPayload where
  message_id : String
  emoji : String
  user_id : String
deriving DecidableEq, Repr

/-- Payload of ThreadUpdated, from types.ts. -/
structure ThreadUpdatedPayload where
  id : String
  starter_message_id : String
  message_count : Int
  last_message_id : Option String
  last_message_at : Option String
deriving DecidableEq, Repr

/-- Payload of MemberJoined, from types.ts. -/
structure MemberJoinedPayload where
  server_id : String
  user : User
  joined_at : String
deriving DecidableEq, Repr

/-- Payload of MemberLeft, from types.ts. -/
structure MemberLeftPayload where
  server_id : String
  user_id : String
deriving DecidableEq, Repr

/-- Payload of DmCreated, from types.ts. -/
structure DmCreatedPayload where
  channel_id : String
  server_id : String
  sender : User
deriving DecidableEq, Repr

/-- Payload of DmMessageReceived, from types.ts. -/
structure DmMessageReceivedPayload where
  channel_id : String
  server_id : String
  message : Message
deriving DecidableEq, Repr

/-- Author object carried by MentionReceived (no `avatar_url` field),
from the inline type in types.ts. -/
structure BasicAuthor where
  id : String
  name : String
  is_agent : Bool
deriving DecidableEq, Repr

/-- Payload of MentionReceived, from types.ts. -/
structure MentionReceivedPayload where
  message_id : String
  channel_id : String
  server_id : String
  author : BasicAuthor
  content : String
  created_at : String
deriving DecidableEq, Repr

/-- Normalized author record, from `interface NormalizedAuthor` in types.ts. -/
structure NormalizedAuthor where
  id : String
  name : String
  isBot : Bool
  avatarUrl : Option String
deriving DecidableEq, Repr

/-- Normalized inbound event, from `interface NormalizedInbound` in types.ts.
The `raw : unknown` echo of the payload is omitted (it is the input itself);
`platform` is the literal string constant. -/
structure NormalizedInbound where
  id : String
  channelId : String
  serverId : Option String
  accountId : String
  platform : String
  type : String
  author : Option NormalizedAuthor
  content : Option String
  mentions : Option (List MentionRef)
  threadId : Option String
  isDm : Option Bool
  timestamp : String
deriving DecidableEq, Repr

/-! ### Event mapper, from src/event-mapper.ts -/

/-- Mapper context, from `interface MapperContext` in event-mapper.ts. -/
structure MapperContext where
  myUserId : String
  accountId : String
deriving DecidableEq, Repr

/-- Mapped-event result, from `interface MappedEvent` in event-mapper.ts. -/
structure MappedEvent where
  normalized : NormalizedInbound
  autoSubscribe : Option String
deriving DecidableEq, Repr

/-- Wire envelope: the 13 known event tags with their payloads, from
`CentrifugoEventName` in types.ts, plus `unknown tag` for an envelope whose
`event` string is none of the 13 (its payload is irrelevant to the mapper's
control flow). -/
inductive Envelope where
  | MessageSent (p : Message)
  | MessageUpdated (p : Message)
  | MessageDeleted (p : MessageDeletedPayload)
  | TypingStarted (p : TypingStartedPayload)
  | ReactionAdded (p : ReactionAddedPayload)
  | ReactionRemoved (p : ReactionRemovedPayload)
  | ThreadCreated (p : Thread)
  | ThreadUpdated (p : ThreadUpdatedPayload)
  | MemberJoined (p : MemberJoinedPayload)
  | MemberLeft (p : MemberLeftPayload)
  | DmCreated (p : DmCreatedPayload)
  | DmMessageReceived (p : DmMessageReceivedPayload)
  | MentionReceived (p : MentionReceivedPayload)
  | unknown (tag : String)
deriving DecidableEq, Repr

/-- Author mapping for the `User` branch of `mapAuthor` in event-mapper.ts:
`avatar_url` is present on `User`, so `'avatar_url' in user` is true and
`user.avatar_url ?? undefined` collapses null to undefined (`Option`). -/
def mapAuthor (user : User) : NormalizedAuthor :=
  { id := user.id, name := user.name, isBot := user.is_agent,
    avatarUrl := user.avatar_url }

/-- Author mapping for the `{ id; name; is_agent }` branch of `mapAuthor`:
no `avatar_url` field, so `avatarUrl` is undefined. -/
def mapAuthorBasic (user : BasicAuthor) : NormalizedAuthor :=
  { id := user.id, name := user.name, isBot := user.is_agent,
    avatarUrl := none }

/-- Handler for MessageSent, from `handlers.MessageSent` in event-mapper.ts. -/
def handlerMessageSent (payload : Message) (ctx : MapperContext) : Option MappedEvent :=
  if payload.author.id = ctx.myUserId then none
  else some
    { normalized :=
        { id := payload.id, channelId := payload.channel_id,
          serverId := none, accountId := ctx.accountId,
          platform := "disclawd", type := "message",
          author := some (mapAuthor payload.author),
          content := payload.content, mentions := some payload.mentions,
          threadId := payload.thread_id, isDm := none,
          timestamp := payload.created_at },
      autoSubscribe := none }

/-- Handler for MessageUpdated, from `handlers.MessageUpdated`. The timestamp
is `payload.edited_at ?? payload.created_at`. -/
def handlerMessageUpdated (payload : Message) (ctx : MapperContext) : Option MappedEvent :=
  if payload.author.id = ctx.myUserId then none
  else some
    { normalized :=
        { id := payload.id, channelId := payload.channel_id,
          serverId := none, accountId := ctx.accountId,
          platform := "disclawd", type := "message.edit",
          author := some (mapAuthor payload.author),
          content := payload.content, mentions := some payload.mentions,
          threadId := payload.thread_id, isDm := none,
          timestamp := payload.edited_at.getD payload.created_at },
      autoSubscribe := none }

/-- Handler for MessageDeleted, from `handlers.MessageDeleted`; `now` models
`new Date().toISOString()`. -/
def handlerMessageDeleted (payload : MessageDeletedPayload) (ctx : MapperContext)
    (now : String) : Option MappedEvent :=
  some
    { normalized :=
        { id := payload.id, channelId := payload.channel_id,
          serverId := none, accountId := ctx.accountId,
          platform := "disclawd", type := "message.delete",
          author := none, content := none, mentions := none,
          threadId := payload.thread_id, isDm := none,
          timestamp := now },
      autoSubscribe := none }

/-- Handler for TypingStarted, from `handlers.TypingStarted`. -/
def handlerTypingStarted (payload : TypingStartedPayload) (ctx : MapperContext)
    (now : String) : Option MappedEvent :=
  if payload.user_id = ctx.myUserId then none
  else some
    { normalized :=
        { id := "typing:" ++ payload.user_id ++ ":" ++ payload.channel_id,
          channelId := payload.channel_id,
          serverId := none, accountId := ctx.accountId,
          platform := "disclawd", type := "typing",
          author := some
            { id := payload.user_id, name := payload.user_name,
              isBot := false, avatarUrl := none },
          content := none, mentions := none, threadId := none, isDm := none,
          timestamp := now },
      autoSubscribe := none }

/-- Handler for ReactionAdded, from `handlers.ReactionAdded`: channelId is
left blank (the caller resolves it from the subscription name). -/
def handlerReactionAdded (payload : ReactionAddedPayload) (ctx : MapperContext)
    (now : String) : Option MappedEvent :=
  if payload.user_id = ctx.myUserId then none
  else some
    { normalized :=
        { id := "reaction:" ++ payload.message_id ++ ":" ++ payload.emoji
            ++ ":" ++ payload.user_id,
          channelId := "",
          serverId := none, accountId := ctx.accountId,
          platform := "disclawd", type := "reaction.add",
          author := none, content := some payload.emoji, mentions := none,
          threadId := none, isDm := none,
          timestamp := now },
      autoSubscribe := none }

/-- Handler for ReactionRemoved, from `handlers.ReactionRemoved`. -/
def handlerReactionRemoved (payload : ReactionRemovedPayload) (ctx : MapperContext)
    (now : String) : Option MappedEvent :=
  if payload.user_id = ctx.myUserId then none
  else some
    { normalized :=
        { id := "reaction:" ++ payload.message_id ++ ":" ++ payload.emoji
            ++ ":" ++ payload.user_id,
          channelId := "",
          serverId := none, accountId := ctx.accountId,
          platform := "disclawd", type := "reaction.remove",
          author := none, content := some payload.emoji, mentions := none,
          threadId := none, isDm := none,
          timestamp := now },
      autoSubscribe := none }

/-- Handler for ThreadCreated, from `handlers.ThreadCreated`: always yields a
result with an auto-subscribe target for the new thread. -/
def handlerThreadCreated (payload : Thread) (ctx : MapperContext) : Option MappedEvent :=
  some
    { normalized :=
        { id := payload.id, channelId := payload.channel_id,
          serverId := none, accountId := ctx.accountId,
          platform := "disclawd", type := "thread.create",
          author := none, content := none, mentions := none,
          threadId := some payload.id, isDm := none,
          timestamp := payload.created_at },
      autoSubscribe := some ("thread." ++ payload.id) }

/-- Handler for ThreadUpdated, from `handlers.ThreadUpdated`: blank channelId,
timestamp `payload.last_message_at ?? new Date().toISOString()`. -/
def handlerThreadUpdated (payload : ThreadUpdatedPayload) (ctx : MapperContext)
    (now : String) : Option MappedEvent :=
  some
    { normalized :=
        { id := payload.id, channelId := "",
          serverId := none, accountId := ctx.accountId,
          platform := "disclawd", type := "thread.update",
          author := none, content := none, mentions := none,
          threadId := some payload.id, isDm := none,
          timestamp := payload.last_message_at.getD now },
      autoSubscribe := none }

/-- Handler for MemberJoined, from `handlers.MemberJoined`: blank channelId. -/
def handlerMemberJoined (payload : MemberJoinedPayload) (ctx : MapperContext) :
    Option MappedEvent :=
  some
    { normalized :=
        { id := "join:" ++ payload.user.id ++ ":" ++ payload.server_id,
          channelId := "",
          serverId := some payload.server_id, accountId := ctx.accountId,
          platform := "disclawd", type := "presence.join",
          author := some (mapAuthor payload.user),
          content := none, mentions := none, threadId := none, isDm := none,
          timestamp := payload.joined_at },
      autoSubscribe := none }

/-- Handler for MemberLeft, from `handlers.MemberLeft`: blank channelId. -/
def handlerMemberLeft (payload : MemberLeftPayload) (ctx : MapperContext)
    (now : String) : Option MappedEvent :=
  some
    { normalized :=
        { id := "leave:" ++ payload.user_id ++ ":" ++ payload.server_id,
          channelId := "",
          serverId := some payload.server_id, accountId := ctx.accountId,
          platform := "disclawd", type := "presence.leave",
          author := some
            { id := payload.user_id, name := "", isBot := false, avatarUrl := none },
          content := none, mentions := none, threadId := none, isDm := none,
          timestamp := now },
      autoSubscribe := none }

/-- Handler for DmCreated, from `handlers.DmCreated`: always yields a result
with an auto-subscribe target for the new DM channel. -/
def handlerDmCreated (payload : DmCreatedPayload) (ctx : MapperContext)
    (now : String) : Option MappedEvent :=
  some
    { normalized :=
        { id := "dm:" ++ payload.channel_id, channelId := payload.channel_id,
          serverId := some payload.server_id, accountId := ctx.accountId,
          platform := "disclawd", type := "dm.create",
          author := some (mapAuthor payload.sender),
          content := none, mentions := none, threadId := none,
          isDm := some true,
          timestamp := now },
      autoSubscribe := some ("channel." ++ payload.channel_id) }

/-- Handler for DmMessageReceived, from `handlers.DmMessageReceived`. -/
def handlerDmMessageReceived (payload : DmMessageReceivedPayload)
    (ctx : MapperContext) : Option MappedEvent :=
  if payload.message.author.id = ctx.myUserId then none
  else some
    { normalized :=
        { id := payload.message.id, channelId := payload.channel_id,
          serverId := some payload.server_id, accountId := ctx.accountId,
          platform := "disclawd", type := "message",
          author := some (mapAuthor payload.message.author),
          content := payload.message.content,
          mentions := some payload.message.mentions,
          threadId := none, isDm := some true,
          timestamp := payload.message.created_at },
      autoSubscribe := none }

/-- Handler for MentionReceived, from `handlers.MentionReceived`. -/
def handlerMentionReceived (payload : MentionReceivedPayload)
    (ctx : MapperContext) : Option MappedEvent :=
  if payload.author.id = ctx.myUserId then none
  else some
    { normalized :=
        { id := "mention:" ++ payload.message_id, channelId := payload.channel_id,
          serverId := some payload.server_id, accountId := ctx.accountId,
          platform := "disclawd", type := "mention",
          author := some (mapAuthorBasic payload.author),
          content := some payload.content, mentions := none,
          threadId := none, isDm := none,
          timestamp := payload.created_at },
      autoSubscribe := none }

/-! ### Channel-id back-fill regex, from mapEvent in event-mapper.ts

The JS regex is `/private-(?:channel|thread)\.(\d+)/` used with
`String.prototype.match` (no anchors, no global flag): the engine scans for
the leftmost start position at which the pattern matches; the alternatives
are tried in order and `\d+` greedily captures the maximal digit run. -/

/-- Maximal leading digit run (the greedy `\d+`). -/
def digitRun (s : List Char) : List Char :=
  s.takeWhile Char.isDigit

/-- Attempt to match `private-(?:channel|thread)\.(\d+)` at the head of `s`;
returns the captured digit group. -/
def tryMatchPrivateAt (s : List Char) : Option (List Char) :=
  if "private-channel.".toList.isPrefixOf s then
    let d := digitRun (s.drop 16)
    if d.isEmpty then none else some d
  else if "private-thread.".toList.isPrefixOf s then
    let d := digitRun (s.drop 15)
    if d.isEmpty then none else some d
  else none

/-- Leftmost match of the back-fill regex over the whole string: the captured
digit group of the first position where the pattern matches. -/
def findPrivateId : List Char → Option (List Char)
  | [] => none
  | c :: rest =>
    match tryMatchPrivateAt (c :: rest) with
    | some d => some d
    | none => findPrivateId rest

/-- Channel id that the back-fill step would substitute for a blank
`channelId` given the originating Centrifugo channel name (empty when the
regex does not match anywhere in the name). -/
def backfillChannelId (centrifugoChannel : String) : String :=
  match findPrivateId centrifugoChannel.toList with
  | some d => String.mk d
  | none => ""

/-- Back-fill step of `mapEvent`: when the handler produced a result whose
`channelId` is blank, substitute the id captured from the originating channel
name; otherwise leave the result untouched. -/
def applyBackfill (centrifugoChannel : String) :
    Option MappedEvent → Option MappedEvent
  | none => none
  | some me =>
    if me.normalized.channelId = "" then
      match findPrivateId centrifugoChannel.toList with
      | some d =>
        some { me with normalized := { me.normalized with channelId := String.mk d } }
      | none => some me
    else some me

/-- Error raised by the JS runtime, used to model the exceptions `mapEvent`
can raise on the dispatch path. -/
inductive JsError where
  | typeError
deriving DecidableEq, Repr

/-- Names of the function- or object-valued members that every JS object
literal inherits from `Object.prototype`. For an envelope tag equal to one of
these, `handlers[envelope.event]` in event-mapper.ts does not yield
`undefined`: the property lookup walks the prototype chain and finds the
inherited member, which is truthy, so the `if (!handler) return null` guard
does not fire; the subsequent call / dereference of
`result.normalized.channelId` then raises a TypeError. -/
def objectProtoMembers : List String :=
  ["constructor", "hasOwnProperty", "isPrototypeOf", "propertyIsEnumerable",
   "toLocaleString", "toString", "valueOf", "__defineGetter__",
   "__defineSetter__", "__lookupGetter__", "__lookupSetter__", "__proto__"]

/-- Embedding of `mapEvent` from event-mapper.ts: dispatch on the event tag,
run the handler, then back-fill a blank `channelId` from the originating
channel name. `now` models `new Date().toISOString()`. For a tag outside the
13 known ones, the string-keyed lookup `handlers[envelope.event]` returns
`undefined` (hence null) only when the tag is also not an inherited member of
`Object.prototype`; otherwise the evaluation throws (see
`objectProtoMembers`). -/
def mapEvent (envelope : Envelope) (ctx : MapperContext)
    (centrifugoChannel : String) (now : String) :
    Except JsError (Option MappedEvent) :=
  match envelope with
  | .MessageSent p =>
    .ok (applyBackfill centrifugoChannel (handlerMessageSent p ctx))
  | .MessageUpdated p =>
    .ok (applyBackfill centrifugoChannel (handlerMessageUpdated p ctx))
  | .MessageDeleted p =>
    .ok (applyBackfill centrifugoChannel (handlerMessageDeleted p ctx now))
  | .TypingStarted p =>
    .ok (applyBackfill centrifugoChannel (handlerTypingStarted p ctx now))
  | .ReactionAdded p =>
    .ok (applyBackfill centrifugoChannel (handlerReactionAdded p ctx now))
  | .ReactionRemoved p =>
    .ok (applyBackfill centrifugoChannel (handlerReactionRemoved p ctx now))
  | .ThreadCreated p =>
    .ok (applyBackfill centrifugoChannel (handlerThreadCreated p ctx))
  | .ThreadUpdated p =>
    .ok (applyBackfill centrifugoChannel (handlerThreadUpdated p ctx now))
  | .MemberJoined p =>
    .ok (applyBackfill centrifugoChannel (handlerMemberJoined p ctx))
  | .MemberLeft p =>
    .ok (applyBackfill centrifugoChannel (handlerMemberLeft p ctx now))
  | .DmCreated p =>
    .ok (applyBackfill centrifugoChannel (handlerDmCreated p ctx now))
  | .DmMessageReceived p =>
    .ok (applyBackfill centrifugoChannel (handlerDmMessageReceived p ctx))
  | .MentionReceived p =>
    .ok (applyBackfill centrifugoChannel (handlerMentionReceived p ctx))
  | .unknown tag =>
    if tag ∈ objectProtoMembers then .error .typeError else .ok none

/-! ### Text chunking, from src/utils.ts -/

/-- Default chunk limit `MAX_MESSAGE_LENGTH` from utils.ts. -/
def MAX_MESSAGE_LENGTH : Nat := 4000

/-- Whitespace test matching the characters the relevant JS operations
(`trimStart`, `trimEnd`, regex `\s`) treat as whitespace, restricted to the
ASCII range (the non-ASCII whitespace code points do not occur in the claims
or counterexamples considered here). -/
def jsWs (c : Char) : Bool :=
  c = ' ' || c = '\t' || c = '\n' || c = '\r' || c = '\x0b' || c = '\x0c'

/-- Embedding of `String.prototype.trimStart`. -/
def trimStart (s : List Char) : List Char :=
  s.dropWhile jsWs

/-- Embedding of `String.prototype.trimEnd`. -/
def trimEnd (s : List Char) : List Char :=
  (s.reverse.dropWhile jsWs).reverse

/-- Whether a line begins with three backticks (a code-fence marker). -/
def isFenceLine (l : List Char) : Bool :=
  l.take 3 = "```".toList

/-- Count of code-fence markers: `(slice.match(/^```/gm) || []).length` in
utils.ts. With the multiline flag, `^` matches at the start of the string and
after every newline, so the count equals the number of lines (split on
newline) whose first three characters are backticks. -/
def countFences (s : List Char) : Nat :=
  ((s.splitOn '\n').filter isFenceLine).length

/-- Embedding of `String.prototype.lastIndexOf(sub)`: the greatest index at
which `sub` occurs in `s` (`none` for the JS result `-1`). -/
def lastOccur (sub s : List Char) : Option Nat :=
  (List.range (s.length + 1)).foldl
    (fun acc i => if sub.isPrefixOf (s.drop i) then some i else acc) none

/-- Embedding of `String.prototype.indexOf(sub, start)`: the least index
`≥ start` at which `sub` occurs in `s`. -/
def indexOfFrom (sub s : List Char) (start : Nat) : Option Nat :=
  (List.range (s.length + 1)).find?
    (fun i => decide (start ≤ i) && sub.isPrefixOf (s.drop i))

/-- Sentence-end test `[.!?]` of the regex in `findLastSentenceEnd`. -/
def isSentencePunct (c : Char) : Bool :=
  c = '.' || c = '!' || c = '?'

/-- All non-overlapping matches of the regex `[.!?]\s+\S` (global flag), in
order, from `text.match(/[.!?]\s+\S/g)` in utils.ts. A match at a given
position consists of the punctuation character, the maximal nonempty run of
whitespace after it, and the following non-whitespace character; the scan
resumes after the match. `fuel` bounds the recursion; `s.length` is always
sufficient. -/
def sentenceMatches : Nat → List Char → List (List Char)
  | 0, _ => []
  | _, [] => []
  | fuel + 1, c :: rest =>
    if isSentencePunct c then
      if 1 ≤ (rest.takeWhile jsWs).length ∧ (rest.takeWhile jsWs).length < rest.length then
        (c :: rest.take ((rest.takeWhile jsWs).length + 1)) ::
          sentenceMatches fuel (rest.drop ((rest.takeWhile jsWs).length + 1))
      else sentenceMatches fuel rest
    else sentenceMatches fuel rest

/-- Embedding of `findLastSentenceEnd` from utils.ts: if the regex has no
match, `-1`; otherwise fold over the matches, locating each one with
`indexOf(m, searchFrom)` and recording `idx + 2` (after the punctuation and
one space), advancing `searchFrom` to `idx + 1`. -/
def findLastSentenceEnd (s : List Char) : Int :=
  let ms := sentenceMatches s.length s
  if ms.isEmpty then -1
  else
    (ms.foldl
      (fun (acc : Int × Nat) m =>
        match indexOfFrom m s acc.2 with
        | some idx => ((idx : Int) + 2, idx + 1)
        | none => acc)
      (-1, 0)).1

/-- Fence-guard candidate of `findBreakpoint`: with an odd count of fence
markers in the slice, the index of the last `"\n```"` when positive. -/
def fenceCut (slice : List Char) : Option Nat :=
  if countFences slice % 2 = 1 then
    match lastOccur "\n```".toList slice with
    | some i => if 0 < i then some i else none
    | none => none
  else none

/-- Paragraph-break candidate: the last blank line past 30% of the limit,
cutting after the two newlines. -/
def paraCut (maxLen : Nat) (slice : List Char) : Option Nat :=
  match lastOccur "\n\n".toList slice with
  | some p => if 3 * maxLen < 10 * p then some (p + 2) else none
  | none => none

/-- Line-break candidate: the last newline past 30% of the limit, cutting
after it. -/
def lineCut (maxLen : Nat) (slice : List Char) : Option Nat :=
  match lastOccur "\n".toList slice with
  | some p => if 3 * maxLen < 10 * p then some (p + 1) else none
  | none => none

/-- Word-boundary candidate: the last space past 30% of the limit, cutting
after it. -/
def wordCut (maxLen : Nat) (slice : List Char) : Option Nat :=
  match lastOccur " ".toList slice with
  | some p => if 3 * maxLen < 10 * p then some (p + 1) else none
  | none => none

/-- Embedding of `findBreakpoint` from utils.ts. The candidate slice is the
first `maxLen` characters. In priority order: an odd fence count cuts at the
last `"\n```"` if its index is positive (`fenceCut`); else the last blank
line past 30% of the limit (`paraCut`); else the last newline past 30%
(`lineCut`); else the last sentence end past 30%; else the last space past
30% (`wordCut`); else a hard cut at `maxLen`. The JS comparison
`x > maxLen * 0.3` is modelled as `3 * maxLen < 10 * x`. -/
def findBreakpoint (text : List Char) (maxLen : Nat) : Nat :=
  match fenceCut (text.take maxLen) with
  | some i => i
  | none =>
  match paraCut maxLen (text.take maxLen) with
  | some b => b
  | none =>
  match lineCut maxLen (text.take maxLen) with
  | some b => b
  | none =>
  if 3 * (maxLen : Int) < 10 * findLastSentenceEnd (text.take maxLen) then
    (findLastSentenceEnd (text.take maxLen)).toNat
  else
  match wordCut maxLen (text.take maxLen) with
  | some b => b
  | none => maxLen

/-- Loop body of `chunkText` from utils.ts: while the remainder exceeds the
limit, emit the slice up to the breakpoint (trailing whitespace trimmed) and
continue on the remainder (leading whitespace trimmed); finally emit the
nonempty remainder. `fuel` bounds the recursion; any value at least the
length of the remaining text is sufficient when `1 ≤ maxLen` (see the C10
theorem). -/
def chunkGo (maxLen : Nat) : Nat → List Char → List (List Char)
  | 0, _ => []
  | fuel + 1, remaining =>
    if remaining.length ≤ maxLen then
      if remaining.length = 0 then [] else [remaining]
    else
      let bp := findBreakpoint remaining maxLen
      trimEnd (remaining.take bp) :: chunkGo maxLen fuel (trimStart (remaining.drop bp))

/-- Embedding of `chunkText` from utils.ts. -/
def chunkText (text : List Char) (maxLen : Nat) : List (List Char) :=
  if text.length ≤ maxLen then [text]
  else chunkGo maxLen text.length text

/-! ### Rate limiter, from src/rate-limiter.ts

JS numbers are modelled as exact rationals; `Date.now()` timestamps become
explicit `now : Rat` arguments. Each method returns the updated bucket map
(the JS methods mutate the bucket object in place). -/

/-- Token bucket, from `interface Bucket` in rate-limiter.ts. -/
structure Bucket where
  tokens : Rat
  maxTokens : Rat
  refillRate : Rat
  lastRefill : Rat
deriving DecidableEq, Repr

/-- State of a `RateLimiter`: its `buckets` map, keyed by scope string
(insertion-ordered, as a JS `Map`). -/
abbrev LimiterState := List (String × Bucket)

/-- Embedding of `RateLimiter.getBucket`: look the key up, lazily inserting a
full bucket with refill rate `maxPerMinute / 60000` on first use. -/
def getBucket (st : LimiterState) (key : String) (maxPerMinute : Rat)
    (now : Rat) : Bucket × LimiterState :=
  match st.lookup key with
  | some b => (b, st)
  | none =>
    let b : Bucket :=
      { tokens := maxPerMinute, maxTokens := maxPerMinute,
        refillRate := maxPerMinute / 60000, lastRefill := now }
    (b, st ++ [(key, b)])

/-- Replace the bucket stored under `key`. -/
def setBucket (st : LimiterState) (key : String) (b : Bucket) : LimiterState :=
  st.map fun kv => if kv.1 = key then (key, b) else kv

/-- Embedding of `RateLimiter.refill`: add `elapsed * refillRate` tokens,
clamped above by `maxTokens`, and reset the refill clock. -/
def refill (b : Bucket) (now : Rat) : Bucket :=
  { b with
    tokens := min b.maxTokens (b.tokens + (now - b.lastRefill) * b.refillRate),
    lastRefill := now }

/-- Embedding of `RateLimiter.canConsume`. -/
def canConsume (st : LimiterState) (key : String) (maxPerMinute : Rat)
    (now : Rat) : Bool × LimiterState :=
  let bs := getBucket st key maxPerMinute now
  let b := refill bs.1 now
  (decide (1 ≤ b.tokens), setBucket bs.2 key b)

/-- Embedding of `RateLimiter.consume`. -/
def consume (st : LimiterState) (key : String) (maxPerMinute : Rat)
    (now : Rat) : Bool × LimiterState :=
  let bs := getBucket st key maxPerMinute now
  let b := refill bs.1 now
  if 1 ≤ b.tokens then (true, setBucket bs.2 key { b with tokens := b.tokens - 1 })
  else (false, setBucket bs.2 key b)

/-- Embedding of `RateLimiter.msUntilAvailable`. `Math.ceil` becomes the
rational ceiling; note that in JS a zero refill rate yields Infinity, while
the rational model yields 0 — the difference only arises for a zero
capacity, which no caller uses. -/
def msUntilAvailable (st : LimiterState) (key : String) (maxPerMinute : Rat)
    (now : Rat) : Int × LimiterState :=
  let bs := getBucket st key maxPerMinute now
  let b := refill bs.1 now
  if 1 ≤ b.tokens then (0, setBucket bs.2 key b)
  else (⌈(1 - b.tokens) / b.refillRate⌉, setBucket bs.2 key b)

/-- Embedding of `RateLimiter.updateFromHeaders`: authoritative correction,
setting the count to `min(remaining, maxTokens)` and resetting the clock. -/
def updateFromHeaders (st : LimiterState) (key : String) (maxPerMinute : Rat)
    (remaining : Rat) (now : Rat) : LimiterState :=
  let bs := getBucket st key maxPerMinute now
  setBucket bs.2 key
    { bs.1 with tokens := min remaining bs.1.maxTokens, lastRefill := now }

/-- Embedding of `RateLimiter.waitForSlot`: measure the wait, sleep for it
(modelled by advancing the clock), then consume. Returns the state and the
time at which the consume happened. -/
def waitForSlot (st : LimiterState) (key : String) (maxPerMinute : Rat)
    (now : Rat) : LimiterState × Rat :=
  let ws := msUntilAvailable st key maxPerMinute now
  let t := if 0 < ws.1 then now + (ws.1 : Rat) else now
  ((consume ws.2 key maxPerMinute t).2, t)

/-- One public `RateLimiter` operation, for stating the sequence invariant. -/
inductive LimiterOp where
  | canConsume (key : String) (maxPerMinute : Rat)
  | consume (key : String) (maxPerMinute : Rat)
  | msUntilAvailable (key : String) (maxPerMinute : Rat)
  | updateFromHeaders (key : String) (maxPerMinute : Rat) (remaining : Rat)
  | waitForSlot (key : String) (maxPerMinute : Rat)
deriving DecidableEq, Repr

/-- Apply one operation at wall-clock time `now`; returns the new state and
the time when the operation finished (only `waitForSlot` takes time). -/
def applyOp (st : LimiterState) (now : Rat) : LimiterOp → LimiterState × Rat
  | .canConsume k m => ((canConsume st k m now).2, now)
  | .consume k m => ((consume st k m now).2, now)
  | .msUntilAvailable k m => ((msUntilAvailable st k m now).2, now)
  | .updateFromHeaders k m r => (updateFromHeaders st k m r now, now)
  | .waitForSlot k m => waitForSlot st k m now

/-- Run a list of timestamped operations. The wall clock is monotone: each
operation runs at the later of its listed timestamp and the time the previous
operation finished (`Date.now()` never runs backwards within a run). -/
def runOps : LimiterState → Rat → List (Rat × LimiterOp) → LimiterState
  | st, _, [] => st
  | st, clock, (t, op) :: rest =>
    let r := applyOp st (max clock t) op
    runOps r.1 r.2 rest

/-- Capacity argument of an operation is nonnegative. -/
def opCapNonneg : LimiterOp → Prop
  | .canConsume _ m => 0 ≤ m
  | .consume _ m => 0 ≤ m
  | .msUntilAvailable _ m => 0 ≤ m
  | .updateFromHeaders _ m _ => 0 ≤ m
  | .waitForSlot _ m => 0 ≤ m

/-- The `remaining` argument of an `updateFromHeaders` operation is
nonnegative (true of every other operation). -/
def opRemainingNonneg : LimiterOp → Prop
  | .updateFromHeaders _ _ r => 0 ≤ r
  | _ => True

/-- Well-formedness of a limiter state at wall-clock time `t`: every bucket
holds between 0 and `maxTokens` tokens, has a nonnegative refill rate, and a
refill clock not in the future. -/
def StateOk (t : Rat) (st : LimiterState) : Prop :=
  ∀ p ∈ st, 0 ≤ p.2.tokens ∧ p.2.tokens ≤ p.2.maxTokens ∧
    0 ≤ p.2.refillRate ∧ p.2.lastRefill ≤ t

/-! ### REST request control flow, from src/api-client.ts

`ApiClient.request` is modelled as a recursion over the list of responses
the server would return to the successive attempts. The rate-limiter
interaction (`waitForSlot` before the fetch, `updateFromHeaders` on an
`X-RateLimit-Remaining` header) is recorded in the trace; the delays are the
`setTimeout` sleeps before 429 retries. -/

/-- One HTTP response as `request` observes it: the status, the parsed
`Retry-After` header (`none` when absent or `parseInt` gives NaN), the
parsed `X-RateLimit-Remaining` header (`none` when absent), and the body
text. -/
structure WireResponse where
  status : Nat
  retryAfter : Option Int
  rateLimitRemaining : Option Int
  body : String
deriving DecidableEq, Repr

/-- Final outcome of `request`. -/
inductive ReqOutcome where
  | success (body : String)
  | noContent
  | apiError (status : Nat) (body : String) (path : String)
  | outOfResponses
deriving DecidableEq, Repr

/-- Trace of one `request` call: outcome, the sleeps performed before 429
retries (ms), the `X-RateLimit-Remaining` values fed to
`updateFromHeaders`, and the number of HTTP attempts made. -/
structure ReqTrace where
  outcome : ReqOutcome
  delaysMs : List Int
  headerUpdates : List Int
  attempts : Nat
deriving DecidableEq, Repr

/-- Retry delay in seconds for a 429: the parsed `Retry-After` when it is a
finite number `> 0`, else the default 5. -/
def retryDelaySec (r : WireResponse) : Int :=
  match r.retryAfter with
  | some p => if 0 < p then p else 5
  | none => 5

/-- Header-update record of one response. -/
def headerUpdatesOf (r : WireResponse) : List Int :=
  match r.rateLimitRemaining with
  | some n => [n]
  | none => []

/-- Embedding of the control flow of `ApiClient.request` from api-client.ts:
update the limiter from `X-RateLimit-Remaining` when present; on 429, sleep
for the server-indicated (or default 5s) delay and re-issue the identical
request; on 204, resolve with no content; on any other non-2xx status, throw
`ApiError(status, body, path)`; otherwise resolve with the body. -/
def request (path : String) : List WireResponse → ReqTrace
  | [] => { outcome := .outOfResponses, delaysMs := [], headerUpdates := [], attempts := 0 }
  | r :: rest =>
    if r.status = 429 then
      let t := request path rest
      { outcome := t.outcome,
        delaysMs := (retryDelaySec r * 1000) :: t.delaysMs,
        headerUpdates := headerUpdatesOf r ++ t.headerUpdates,
        attempts := t.attempts + 1 }
    else if r.status = 204 then
      { outcome := .noContent, delaysMs := [], headerUpdates := headerUpdatesOf r, attempts := 1 }
    else if 200 ≤ r.status ∧ r.status < 300 then
      { outcome := .success r.body, delaysMs := [], headerUpdates := headerUpdatesOf r, attempts := 1 }
    else
      { outcome := .apiError r.status r.body path, delaysMs := [],
        headerUpdates := headerUpdatesOf r, attempts := 1 }

/-! ### Channel gateway runtime dispatch, from src/channel.ts

Only the fields of `AccountRuntime` that identify the runtime are modelled;
the `api` / `gateway` / `outbound` handles are behaviour, not data, and every
claim settled here concerns whether an operation reaches them at all. -/

/-- Per-account runtime entry, from `interface AccountRuntime` in channel.ts. -/
structure AccountRuntime where
  accountId : String
  userId : String
deriving DecidableEq, Repr

/-- The module-level `runtimes` map of channel.ts (insertion-ordered). -/
abbrev RuntimeMap := List (String × AccountRuntime)

/-- Key-based half of `getRuntime` from channel.ts: the guard
`accountId && runtimes.has(accountId)` — a present, truthy (nonempty)
account id that is a key of the map. -/
def viaKeyLookup (runtimes : RuntimeMap) : Option String → Option AccountRuntime
  | some id => if id = "" then none else runtimes.lookup id
  | none => none

/-- Fallback half of `getRuntime` from channel.ts: the first runtime in
insertion order, or the thrown `Error('Gateway not started')` when the map
is empty. -/
def firstRuntime : RuntimeMap → Except String AccountRuntime
  | [] => .error "Gateway not started"
  | kv :: _ => .ok kv.2

/-- Embedding of `getRuntime` from channel.ts: a truthy `accountId` present
in the map selects that runtime; otherwise fall back to the first runtime;
an empty map throws `Error('Gateway not started')`. -/
def getRuntime (runtimes : RuntimeMap) (accountId : Option String) :
    Except String AccountRuntime :=
  match viaKeyLookup runtimes accountId with
  | some rt => .ok rt
  | none => firstRuntime runtimes

/-- One public gateway operation of the disclawd channel (outbound sendText,
threading, and message actions), from channel.ts. -/
inductive GatewayOp where
  | sendText (channelId text : String) (threadId accountId : Option String)
  | replyInThread (threadId text : String)
  | createThread (channelId messageId : String) (name : Option String)
  | react (channelId messageId emoji : String)
  | unreact (channelId messageId emoji : String)
  | edit (channelId messageId content : String)
  | delete (channelId messageId : String)
deriving DecidableEq, Repr

/-- Dispatch of one gateway operation, from channel.ts: every operation first
resolves a runtime via `getRuntime` (only `sendText` passes an account id)
and then performs the platform call through that runtime; the resolved
runtime together with the operation stands for the call performed. -/
def runGatewayOp (runtimes : RuntimeMap) :
    GatewayOp → Except String (AccountRuntime × GatewayOp)
  | .sendText ch txt thr acct =>
    (getRuntime runtimes acct).map fun rt => (rt, .sendText ch txt thr acct)
  | op => (getRuntime runtimes none).map fun rt => (rt, op)

/-- Embedding of `gateway.stop` from channel.ts: stop every runtime's
gateway, clear the typing timers, and clear the map — the post-`stop()`
runtime state is the empty map. -/
def stopChannel (_runtimes : RuntimeMap) : RuntimeMap := []

/-- Projection used to state closed facts about mapper results: the
`channelId` of a non-null successful result. -/
def mappedChannelId : Except JsError (Option MappedEvent) → Option String
  | .ok (some m) => some m.normalized.channelId
  | _ => none

/-- Whether a mapper result is a non-null success. -/
def isOkSome : Except JsError (Option MappedEvent) → Bool
  | .ok (some _) => true
  | _ => false

/-- Spec-side reading of claim C2 (refinement target, following the spec's
words rather than the code): the originating channel name, read as a whole,
is `private-channel.<id>` or `private-thread.<id>` for a nonempty digit
string `<id>`; the result is that `<id>`. -/
def specExactPrivateName (name : String) : Option String :=
  let s := name.toList
  if "private-channel.".toList.isPrefixOf s ∧ s.drop 16 ≠ [] ∧
      (s.drop 16).all Char.isDigit then
    some (String.mk (s.drop 16))
  else if "private-thread.".toList.isPrefixOf s ∧ s.drop 15 ≠ [] ∧
      (s.drop 15).all Char.isDigit then
    some (String.mk (s.drop 15))
  else none

/-- Well-formedness of a single bucket at wall-clock time `t`. -/
def BucketOkAt (t : Rat) (b : Bucket) : Prop :=
  0 ≤ b.tokens ∧ b.tokens ≤ b.maxTokens ∧ 0 ≤ b.refillRate ∧ b.lastRefill ≤ t

/-! ### Helper lemmas about the mapper -/

/-- The back-fill step never discards a handler result; the only change it
can make is to replace a blank `channelId` with the id captured from the
originating channel name. -/
theorem applyBackfill_some (ch : String) (me : MappedEvent) :
    applyBackfill ch (some me) =
      some { me with normalized :=
        { me.normalized with channelId :=
            if me.normalized.channelId = "" then backfillChannelId ch
            else me.normalized.channelId } } := by
  unfold applyBackfill backfillChannelId
  by_cases h : me.normalized.channelId = ""
  · cases hf : findPrivateId ch.toList with
    | none =>
      simp only [hf, if_pos h]
      conv_rhs => rw [← h]
    | some d => simp only [hf, if_pos h]
  · simp only [if_neg h]

/-- Nonemptiness form of `applyBackfill_some`. -/
theorem applyBackfill_isSome (ch : String) (me : MappedEvent) :
    ∃ me', applyBackfill ch (some me) = some me' ∧
      me'.autoSubscribe = me.autoSubscribe := by
  rw [applyBackfill_some]
  exact ⟨_, rfl, rfl⟩

/-! ### Claim C1: self-echo suppression -/

/-- C1: for each of the seven actor-bearing kinds (MessageSent,
MessageUpdated, TypingStarted, ReactionAdded, ReactionRemoved,
DmMessageReceived, MentionReceived) and every context, `mapEvent` returns
null exactly when the event's actor id (`author.id`, `user_id`, or
`message.author.id` as appropriate) equals `context.myUserId`, and a
non-null result when it differs. -/
theorem c1_self_echo (ctx : MapperContext) (ch now : String) :
    (∀ p : Message, p.author.id = ctx.myUserId →
      mapEvent (.MessageSent p) ctx ch now = .ok none) ∧
    (∀ p : Message, p.author.id ≠ ctx.myUserId →
      ∃ m, mapEvent (.MessageSent p) ctx ch now = .ok (some m)) ∧
    (∀ p : Message, p.author.id = ctx.myUserId →
      mapEvent (.MessageUpdated p) ctx ch now = .ok none) ∧
    (∀ p : Message, p.author.id ≠ ctx.myUserId →
      ∃ m, mapEvent (.MessageUpdated p) ctx ch now = .ok (some m)) ∧
    (∀ p : TypingStartedPayload, p.user_id = ctx.myUserId →
      mapEvent (.TypingStarted p) ctx ch now = .ok none) ∧
    (∀ p : TypingStartedPayload, p.user_id ≠ ctx.myUserId →
      ∃ m, mapEvent (.TypingStarted p) ctx ch now = .ok (some m)) ∧
    (∀ p : ReactionAddedPayload, p.user_id = ctx.myUserId →
      mapEvent (.ReactionAdded p) ctx ch now = .ok none) ∧
    (∀ p : ReactionAddedPayload, p.user_id ≠ ctx.myUserId →
      ∃ m, mapEvent (.ReactionAdded p) ctx ch now = .ok (some m)) ∧
    (∀ p : ReactionRemovedPayload, p.user_id = ctx.myUserId →
      mapEvent (.ReactionRemoved p) ctx ch now = .ok none) ∧
    (∀ p : ReactionRemovedPayload, p.user_id ≠ ctx.myUserId →
      ∃ m, mapEvent (.ReactionRemoved p) ctx ch now = .ok (some m)) ∧
    (∀ p : DmMessageReceivedPayload, p.message.author.id = ctx.myUserId →
      mapEvent (.DmMessageReceived p) ctx ch now = .ok none) ∧
    (∀ p : DmMessageReceivedPayload, p.message.author.id ≠ ctx.myUserId →
      ∃ m, mapEvent (.DmMessageReceived p) ctx ch now = .ok (some m)) ∧
    (∀ p : MentionReceivedPayload, p.author.id = ctx.myUserId →
      mapEvent (.MentionReceived p) ctx ch now = .ok none) ∧
    (∀ p : MentionReceivedPayload, p.author.id ≠ ctx.myUserId →
      ∃ m, mapEvent (.MentionReceived p) ctx ch now = .ok (some m)) := by
  refine ⟨?_, ?_, ?_, ?_, ?_, ?_, ?_, ?_, ?_, ?_, ?_, ?_, ?_, ?_⟩ <;>
    intro p h
  case _ => simp [mapEvent, handlerMessageSent, h, applyBackfill]
  case _ =>
    obtain ⟨m, hm, _⟩ := applyBackfill_isSome ch
      ((handlerMessageSent p ctx).get (by simp [handlerMessageSent, h]))
    exact ⟨m, by simpa [mapEvent, handlerMessageSent, h] using hm⟩
  case _ => simp [mapEvent, handlerMessageUpdated, h, applyBackfill]
  case _ =>
    obtain ⟨m, hm, _⟩ := applyBackfill_isSome ch
      ((handlerMessageUpdated p ctx).get (by simp [handlerMessageUpdated, h]))
    exact ⟨m, by simpa [mapEvent, handlerMessageUpdated, h] using hm⟩
  case _ => simp [mapEvent, handlerTypingStarted, h, applyBackfill]
  case _ =>
    obtain ⟨m, hm, _⟩ := applyBackfill_isSome ch
      ((handlerTypingStarted p ctx now).get (by simp [handlerTypingStarted, h]))
    exact ⟨m, by simpa [mapEvent, handlerTypingStarted, h] using hm⟩
  case _ => simp [mapEvent, handlerReactionAdded, h, applyBackfill]
  case _ =>
    obtain ⟨m, hm, _⟩ := applyBackfill_isSome ch
      ((handlerReactionAdded p ctx now).get (by simp [handlerReactionAdded, h]))
    exact ⟨m, by simpa [mapEvent, handlerReactionAdded, h] using hm⟩
  case _ => simp [mapEvent, handlerReactionRemoved, h, applyBackfill]
  case _ =>
    obtain ⟨m, hm, _⟩ := applyBackfill_isSome ch
      ((handlerReactionRemoved p ctx now).get (by simp [handlerReactionRemoved, h]))
    exact ⟨m, by simpa [mapEvent, handlerReactionRemoved, h] using hm⟩
  case _ => simp [mapEvent, handlerDmMessageReceived, h, applyBackfill]
  case _ =>
    obtain ⟨m, hm, _⟩ := applyBackfill_isSome ch
      ((handlerDmMessageReceived p ctx).get (by simp [handlerDmMessageReceived, h]))
    exact ⟨m, by simpa [mapEvent, handlerDmMessageReceived, h] using hm⟩
  case _ => simp [mapEvent, handlerMentionReceived, h, applyBackfill]
  case _ =>
    obtain ⟨m, hm, _⟩ := applyBackfill_isSome ch
      ((handlerMentionReceived p ctx).get (by simp [handlerMentionReceived, h]))
    exact ⟨m, by simpa [mapEvent, handlerMentionReceived, h] using hm⟩



/-- Witness for `c1_self_echo`: a concrete MessageSent whose author is the
local agent maps to null, and the same message from another author maps to a
non-null result. -/
theorem c1_self_echo_witness :
    mapEvent (.MessageSent
        ⟨"m1", "c1", ⟨"me", "alice", false, none, "T0"⟩, some "hi",
          none, none, "T1", [], [], none, none⟩)
      ⟨"me", "acct"⟩ "private-channel.1" "T" = .ok none ∧
    isOkSome (mapEvent (.MessageSent
        ⟨"m1", "c1", ⟨"u2", "bob", false, none, "T0"⟩, some "hi",
          none, none, "T1", [], [], none, none⟩)
      ⟨"me", "acct"⟩ "private-channel.1" "T") = true := by
  constructor
  · exact (c1_self_echo ⟨"me", "acct"⟩ "private-channel.1" "T").1 _ rfl
  · obtain ⟨m, hm⟩ :=
      (c1_self_echo ⟨"me", "acct"⟩ "private-channel.1" "T").2.1
        ⟨"m1", "c1", ⟨"u2", "bob", false, none, "T0"⟩, some "hi",
          none, none, "T1", [], [], none, none⟩ (by decide)
    rw [hm]
    rfl

/-! ### Claim C8: auto-subscribe targets -/

/-- C8: `mapEvent` on every ThreadCreated envelope yields a non-null result
whose auto-subscribe target is `thread.<id>` for the payload's thread id,
and on every DmCreated envelope a non-null result whose auto-subscribe
target is `channel.<id>` for the payload's channel id. -/
theorem c8_auto_subscribe (ctx : MapperContext) (ch now : String) :
    (∀ p : Thread, ∃ m, mapEvent (.ThreadCreated p) ctx ch now = .ok (some m) ∧
      m.autoSubscribe = some ("thread." ++ p.id)) ∧
    (∀ p : DmCreatedPayload, ∃ m, mapEvent (.DmCreated p) ctx ch now = .ok (some m) ∧
      m.autoSubscribe = some ("channel." ++ p.channel_id)) := by
  constructor <;> intro p
  · simp only [mapEvent, handlerThreadCreated]
    rw [applyBackfill_some]
    exact ⟨_, rfl, rfl⟩
  · simp only [mapEvent, handlerDmCreated]
    rw [applyBackfill_some]
    exact ⟨_, rfl, rfl⟩

/-! ### Claim C9: dispatch on an unknown event tag -/

/-- C9: the string-keyed dispatch is not total. For the unknown tag
`"toString"` the lookup `handlers[envelope.event]` finds the inherited
`Object.prototype.toString`, which is truthy, so the null guard is skipped
and evaluation throws a TypeError instead of returning null; an unknown tag
that is not an `Object.prototype` member (such as `"UnknownEvent"`, the one
exercised by the repository's own test suite) does return null. -/
theorem c9_unknown_tag :
    mapEvent (.unknown "toString") ⟨"me", "acct"⟩ "private-channel.1" "T"
      = .error .typeError ∧
    mapEvent (.unknown "UnknownEvent") ⟨"me", "acct"⟩ "private-channel.1" "T"
      = .ok none := by
  exact ⟨rfl, rfl⟩

/-! ### Claim C2: channel-id back-fill -/


/-- Counterexample to C2 as stated: the channel name `"xprivate-channel.9"`
is not of the form `private-channel.<id>` / `private-thread.<id>`, so the
claim requires the blank `channelId` of a reaction to stay blank; the
unanchored regex in `mapEvent` nevertheless matches the embedded substring
and back-fills `"9"`. -/
theorem c2_counterexample :
    specExactPrivateName "xprivate-channel.9" = none ∧
    mappedChannelId (mapEvent (.ReactionAdded ⟨"m1", "+1", "u2"⟩)
      ⟨"me", "acct"⟩ "xprivate-channel.9" "T") = some "9" := by
  exact ⟨rfl, rfl⟩

/-- Digit runs are preserved: a list of digits is its own maximal digit
prefix. -/
theorem digitRun_all (d : List Char) (h : ∀ c ∈ d, c.isDigit) :
    digitRun d = d := by
  induction d with
  | nil => rfl
  | cons c cs ih =>
    unfold digitRun at ih ⊢
    rw [List.takeWhile_cons, if_pos (h c (List.mem_cons_self c cs))]
    rw [ih fun x hx => h x (List.mem_cons_of_mem c hx)]

/-- The back-fill pattern matches at the head of an exact
`private-channel.<digits>` name, capturing the digits. -/
theorem tryMatch_channel (d : List Char) (hne : d ≠ [])
    (hd : ∀ c ∈ d, c.isDigit) :
    tryMatchPrivateAt ("private-channel.".toList ++ d) = some d := by
  have hpre : "private-channel.".toList.isPrefixOf
      ("private-channel.".toList ++ d) = true :=
    List.isPrefixOf_iff_prefix.mpr (List.prefix_append _ _)
  have hdrop : ("private-channel.".toList ++ d).drop 16 = d := by
    have h16 : ("private-channel.".toList).length = 16 := rfl
    rw [← h16, List.drop_left]
  unfold tryMatchPrivateAt
  rw [if_pos hpre, hdrop, digitRun_all d hd]
  simp [hne]

/-- The back-fill pattern matches at the head of an exact
`private-thread.<digits>` name, capturing the digits. -/
theorem tryMatch_thread (d : List Char) (hne : d ≠ [])
    (hd : ∀ c ∈ d, c.isDigit) :
    tryMatchPrivateAt ("private-thread.".toList ++ d) = some d := by
  have hch : "private-channel.".toList.isPrefixOf
      ("private-thread.".toList ++ d) = false := rfl
  have hpre : "private-thread.".toList.isPrefixOf
      ("private-thread.".toList ++ d) = true :=
    List.isPrefixOf_iff_prefix.mpr (List.prefix_append _ _)
  have hdrop : ("private-thread.".toList ++ d).drop 15 = d := by
    have h15 : ("private-thread.".toList).length = 15 := rfl
    rw [← h15, List.drop_left]
  unfold tryMatchPrivateAt
  rw [hch]
  simp only [Bool.false_eq_true, if_false]
  rw [if_pos hpre, hdrop, digitRun_all d hd]
  simp [hne]

/-- A successful match at the head of the string is the leftmost match. -/
theorem findPrivateId_head (s : List Char) (d : List Char)
    (h : tryMatchPrivateAt s = some d) (hne : s ≠ []) :
    findPrivateId s = some d := by
  cases s with
  | nil => exact absurd rfl hne
  | cons c rest =>
    unfold findPrivateId
    rw [h]

/-- C2, amended: for the payload kinds whose handler leaves `channelId`
blank (reactions, thread updates, presence), `mapEvent` back-fills the id
captured at the first substring occurrence of `private-channel.<digits>` or
`private-thread.<digits>` in the originating channel name, and leaves it
blank when the pattern occurs nowhere in the name. In particular a channel
name that is exactly `private-channel.<digits>` or `private-thread.<digits>`
is back-filled with its digits. (The regex is unanchored: the claim's
"blank for every other channel name" fails for names merely containing the
pattern, see `c2_counterexample`.) -/
theorem c2_backfill (ctx : MapperContext) (ch now : String) :
    (∀ p : ReactionAddedPayload, p.user_id ≠ ctx.myUserId →
      ∃ m, mapEvent (.ReactionAdded p) ctx ch now = .ok (some m) ∧
        m.normalized.channelId = backfillChannelId ch) ∧
    (∀ p : ReactionRemovedPayload, p.user_id ≠ ctx.myUserId →
      ∃ m, mapEvent (.ReactionRemoved p) ctx ch now = .ok (some m) ∧
        m.normalized.channelId = backfillChannelId ch) ∧
    (∀ p : ThreadUpdatedPayload,
      ∃ m, mapEvent (.ThreadUpdated p) ctx ch now = .ok (some m) ∧
        m.normalized.channelId = backfillChannelId ch) ∧
    (∀ p : MemberJoinedPayload,
      ∃ m, mapEvent (.MemberJoined p) ctx ch now = .ok (some m) ∧
        m.normalized.channelId = backfillChannelId ch) ∧
    (∀ p : MemberLeftPayload,
      ∃ m, mapEvent (.MemberLeft p) ctx ch now = .ok (some m) ∧
        m.normalized.channelId = backfillChannelId ch) ∧
    (∀ d : List Char, d ≠ [] → (∀ c ∈ d, c.isDigit) →
      backfillChannelId (String.mk ("private-channel.".toList ++ d)) = String.mk d ∧
      backfillChannelId (String.mk ("private-thread.".toList ++ d)) = String.mk d) ∧
    (findPrivateId ch.toList = none → backfillChannelId ch = "") := by
  refine ⟨?_, ?_, ?_, ?_, ?_, ?_, ?_⟩
  · intro p h
    simp only [mapEvent, handlerReactionAdded, if_neg h]
    rw [applyBackfill_some]
    exact ⟨_, rfl, rfl⟩
  · intro p h
    simp only [mapEvent, handlerReactionRemoved, if_neg h]
    rw [applyBackfill_some]
    exact ⟨_, rfl, rfl⟩
  · intro p
    simp only [mapEvent, handlerThreadUpdated]
    rw [applyBackfill_some]
    exact ⟨_, rfl, rfl⟩
  · intro p
    simp only [mapEvent, handlerMemberJoined]
    rw [applyBackfill_some]
    exact ⟨_, rfl, rfl⟩
  · intro p
    simp only [mapEvent, handlerMemberLeft]
    rw [applyBackfill_some]
    exact ⟨_, rfl, rfl⟩
  · intro d hne hd
    constructor
    · unfold backfillChannelId
      rw [show (String.mk ("private-channel.".toList ++ d)).toList
          = "private-channel.".toList ++ d from rfl]
      rw [findPrivateId_head _ _ (tryMatch_channel d hne hd) (by simp)]
    · unfold backfillChannelId
      rw [show (String.mk ("private-thread.".toList ++ d)).toList
          = "private-thread.".toList ++ d from rfl]
      rw [findPrivateId_head _ _ (tryMatch_thread d hne hd) (by simp)]
  · intro h
    unfold backfillChannelId
    rw [h]

/-- Witness for `c2_backfill`: a concrete reaction on the exact channel name
`private-channel.77` is back-filled with `"77"`. -/
theorem c2_backfill_witness :
    mappedChannelId (mapEvent (.ReactionAdded ⟨"m9", "+1", "u2"⟩)
        ⟨"me", "acct"⟩ "private-channel.77" "T")
      = some (backfillChannelId "private-channel.77") ∧
    backfillChannelId "private-channel.77" = "77" := by
  obtain ⟨m, hm, hc⟩ :=
    (c2_backfill ⟨"me", "acct"⟩ "private-channel.77" "T").1
      ⟨"m9", "+1", "u2"⟩ (by decide)
  constructor
  · rw [hm]
    show some m.normalized.channelId = some (backfillChannelId "private-channel.77")
    rw [hc]
  · rfl

/-! ### Bounds on the breakpoint search -/

/-- Invariants are preserved by `List.foldl`. -/
theorem foldl_inv {α β : Type} (f : β → α → β) (Inv : β → Prop) :
    ∀ (l : List α) (b : β), Inv b →
      (∀ a ∈ l, ∀ b', Inv b' → Inv (f b' a)) → Inv (l.foldl f b)
  | [], _, hb, _ => hb
  | a :: as, b, hb, hf =>
    foldl_inv f Inv as (f b a) (hf a (List.mem_cons_self a as) b hb)
      (fun x hx b' hb' => hf x (List.mem_cons_of_mem a hx) b' hb')

/-- A `lastOccur` result is an occurrence: the pattern is a prefix of the
suffix starting there. -/
theorem lastOccur_isPrefixOf (sub s : List Char) (i : Nat)
    (h : lastOccur sub s = some i) : sub.isPrefixOf (s.drop i) = true := by
  have key := foldl_inv
    (fun acc j => if sub.isPrefixOf (s.drop j) then some j else acc)
    (fun acc => ∀ k, acc = some k → sub.isPrefixOf (s.drop k) = true)
    (List.range (s.length + 1)) none (by intro k hk; cases hk) ?_
  · exact key i h
  · intro a _ b' hb' k hk
    replace hk : (if sub.isPrefixOf (s.drop a) = true then some a else b')
        = some k := hk
    by_cases hp : sub.isPrefixOf (s.drop a) = true
    · rw [if_pos hp] at hk
      injection hk with h1
      exact h1 ▸ hp
    · rw [if_neg hp] at hk
      exact hb' k hk

/-- An occurrence of a nonempty pattern fits inside the string. -/
theorem lastOccur_add_le (sub s : List Char) (i : Nat)
    (h : lastOccur sub s = some i) (hne : sub ≠ []) :
    i + sub.length ≤ s.length := by
  have hp := lastOccur_isPrefixOf sub s i h
  have hpre : sub <+: s.drop i := List.isPrefixOf_iff_prefix.mp hp
  have hlen : sub.length ≤ (s.drop i).length := hpre.length_le
  rw [List.length_drop] at hlen
  have hpos : 0 < sub.length := List.length_pos.mpr hne
  omega

/-- An `indexOfFrom` result is an occurrence. -/
theorem indexOfFrom_isPrefixOf (sub s : List Char) (st i : Nat)
    (h : indexOfFrom sub s st = some i) :
    sub.isPrefixOf (s.drop i) = true := by
  have hfind := List.find?_some h
  simp only [Bool.and_eq_true] at hfind
  exact hfind.2

/-- Every sentence-end regex match has at least three characters
(punctuation, at least one whitespace, one non-whitespace). -/
theorem sentenceMatches_length (fuel : Nat) : ∀ (s m : List Char),
    m ∈ sentenceMatches fuel s → 3 ≤ m.length := by
  induction fuel with
  | zero => intro s m hm; simp [sentenceMatches] at hm
  | succ f ih =>
    intro s m hm
    cases s with
    | nil => simp [sentenceMatches] at hm
    | cons c rest =>
      unfold sentenceMatches at hm
      by_cases hp : isSentencePunct c = true
      · rw [if_pos hp] at hm
        by_cases hk : 1 ≤ (rest.takeWhile jsWs).length ∧
            (rest.takeWhile jsWs).length < rest.length
        · rw [if_pos hk] at hm
          rcases List.mem_cons.mp hm with h1 | h2
          · subst h1
            simp only [List.length_cons, List.length_take]
            omega
          · exact ih _ _ h2
        · rw [if_neg hk] at hm
          exact ih _ _ hm
      · rw [if_neg hp] at hm
        exact ih _ _ hm

/-- The sentence-end position is strictly inside the string. -/
theorem findLastSentenceEnd_le (s : List Char) :
    findLastSentenceEnd s ≤ (s.length : Int) - 1 := by
  unfold findLastSentenceEnd
  by_cases he : (sentenceMatches s.length s).isEmpty = true
  · rw [if_pos he]
    have h0 : (0 : Int) ≤ (s.length : Int) := Int.ofNat_nonneg _
    omega
  · rw [if_neg he]
    refine foldl_inv _ (fun acc : Int × Nat => acc.1 ≤ (s.length : Int) - 1)
      _ _ ?_ ?_
    · show (-1 : Int) ≤ (s.length : Int) - 1
      have h0 : (0 : Int) ≤ (s.length : Int) := Int.ofNat_nonneg _
      omega
    · intro m hm b' hb'
      cases hio : indexOfFrom m s b'.2 with
      | none => exact hb'
      | some idx =>
        have h3 := sentenceMatches_length s.length s m hm
        have hp := indexOfFrom_isPrefixOf m s b'.2 idx hio
        have hpre : m <+: s.drop idx := List.isPrefixOf_iff_prefix.mp hp
        have hlen : m.length ≤ (s.drop idx).length := hpre.length_le
        rw [List.length_drop] at hlen
        have hfit : idx + 3 ≤ s.length := by omega
        show (idx : Int) + 2 ≤ (s.length : Int) - 1
        omega

/-- Characterization of a successful fence cut. -/
theorem fenceCut_some (slice : List Char) (i : Nat)
    (h : fenceCut slice = some i) : 0 < i ∧ i + 4 ≤ slice.length := by
  unfold fenceCut at h
  by_cases hodd : countFences slice % 2 = 1
  · rw [if_pos hodd] at h
    cases hlo : lastOccur "\n```".toList slice with
    | none => rw [hlo] at h; cases h
    | some j =>
      rw [hlo] at h
      replace h : (if 0 < j then some j else none) = some i := h
      by_cases hj : 0 < j
      · rw [if_pos hj] at h
        injection h with h1
        subst h1
        exact ⟨hj, lastOccur_add_le _ _ _ hlo (by decide)⟩
      · rw [if_neg hj] at h; cases h
  · rw [if_neg hodd] at h; cases h

/-- Characterization of a successful paragraph cut. -/
theorem paraCut_some (maxLen : Nat) (slice : List Char) (b : Nat)
    (h : paraCut maxLen slice = some b) :
    ∃ p, b = p + 2 ∧ 3 * maxLen < 10 * p ∧ p + 2 ≤ slice.length := by
  unfold paraCut at h
  cases hlo : lastOccur "\n\n".toList slice with
  | none => rw [hlo] at h; cases h
  | some p =>
    rw [hlo] at h
    replace h : (if 3 * maxLen < 10 * p then some (p + 2) else none)
        = some b := h
    by_cases hp : 3 * maxLen < 10 * p
    · rw [if_pos hp] at h
      injection h with h1
      exact ⟨p, h1.symm, hp, lastOccur_add_le _ _ _ hlo (by decide)⟩
    · rw [if_neg hp] at h; cases h

/-- Characterization of a successful line cut. -/
theorem lineCut_some (maxLen : Nat) (slice : List Char) (b : Nat)
    (h : lineCut maxLen slice = some b) :
    ∃ p, b = p + 1 ∧ 3 * maxLen < 10 * p ∧ p + 1 ≤ slice.length := by
  unfold lineCut at h
  cases hlo : lastOccur "\n".toList slice with
  | none => rw [hlo] at h; cases h
  | some p =>
    rw [hlo] at h
    replace h : (if 3 * maxLen < 10 * p then some (p + 1) else none)
        = some b := h
    by_cases hp : 3 * maxLen < 10 * p
    · rw [if_pos hp] at h
      injection h with h1
      exact ⟨p, h1.symm, hp, lastOccur_add_le _ _ _ hlo (by decide)⟩
    · rw [if_neg hp] at h; cases h

/-- Characterization of a successful word cut. -/
theorem wordCut_some (maxLen : Nat) (slice : List Char) (b : Nat)
    (h : wordCut maxLen slice = some b) :
    ∃ p, b = p + 1 ∧ 3 * maxLen < 10 * p ∧ p + 1 ≤ slice.length := by
  unfold wordCut at h
  cases hlo : lastOccur " ".toList slice with
  | none => rw [hlo] at h; cases h
  | some p =>
    rw [hlo] at h
    replace h : (if 3 * maxLen < 10 * p then some (p + 1) else none)
        = some b := h
    by_cases hp : 3 * maxLen < 10 * p
    · rw [if_pos hp] at h
      injection h with h1
      exact ⟨p, h1.symm, hp, lastOccur_add_le _ _ _ hlo (by decide)⟩
    · rw [if_neg hp] at h; cases h

/-- The breakpoint never exceeds the limit. -/
theorem findBreakpoint_le (text : List Char) (maxLen : Nat) :
    findBreakpoint text maxLen ≤ maxLen := by
  have hslice : (text.take maxLen).length ≤ maxLen := by
    rw [List.length_take]; omega
  unfold findBreakpoint
  cases hf : fenceCut (text.take maxLen) with
  | some i =>
    have h := fenceCut_some _ _ hf
    show i ≤ maxLen
    omega
  | none =>
  cases hpa : paraCut maxLen (text.take maxLen) with
  | some b =>
    obtain ⟨p, rfl, hgt, hle⟩ := paraCut_some _ _ _ hpa
    show p + 2 ≤ maxLen
    omega
  | none =>
  cases hl : lineCut maxLen (text.take maxLen) with
  | some b =>
    obtain ⟨p, rfl, hgt, hle⟩ := lineCut_some _ _ _ hl
    show p + 1 ≤ maxLen
    omega
  | none =>
  by_cases hs : 3 * (maxLen : Int) < 10 * findLastSentenceEnd (text.take maxLen)
  · rw [if_pos hs]
    have hsle := findLastSentenceEnd_le (text.take maxLen)
    show (findLastSentenceEnd (text.take maxLen)).toNat ≤ maxLen
    omega
  · rw [if_neg hs]
    cases hw : wordCut maxLen (text.take maxLen) with
    | some b =>
      obtain ⟨p, rfl, hgt, hle⟩ := wordCut_some _ _ _ hw
      show p + 1 ≤ maxLen
      omega
    | none => show maxLen ≤ maxLen; exact Nat.le_refl maxLen

/-- The breakpoint is positive whenever the limit is. -/
theorem findBreakpoint_pos (text : List Char) (maxLen : Nat)
    (h : 1 ≤ maxLen) : 1 ≤ findBreakpoint text maxLen := by
  unfold findBreakpoint
  cases hf : fenceCut (text.take maxLen) with
  | some i =>
    have hc := fenceCut_some _ _ hf
    show 1 ≤ i
    omega
  | none =>
  cases hpa : paraCut maxLen (text.take maxLen) with
  | some b =>
    obtain ⟨p, rfl, hgt, _⟩ := paraCut_some _ _ _ hpa
    show 1 ≤ p + 2
    omega
  | none =>
  cases hl : lineCut maxLen (text.take maxLen) with
  | some b =>
    obtain ⟨p, rfl, hgt, _⟩ := lineCut_some _ _ _ hl
    show 1 ≤ p + 1
    omega
  | none =>
  by_cases hs : 3 * (maxLen : Int) < 10 * findLastSentenceEnd (text.take maxLen)
  · rw [if_pos hs]
    show 1 ≤ (findLastSentenceEnd (text.take maxLen)).toNat
    omega
  · rw [if_neg hs]
    cases hw : wordCut maxLen (text.take maxLen) with
    | some b =>
      obtain ⟨p, rfl, hgt, _⟩ := wordCut_some _ _ _ hw
      show 1 ≤ p + 1
      omega
    | none => show 1 ≤ maxLen; exact h

/-- Trimming leading whitespace never lengthens a string. -/
theorem trimStart_length_le (s : List Char) :
    (trimStart s).length ≤ s.length := by
  unfold trimStart
  induction s with
  | nil => exact Nat.le_refl 0
  | cons c cs ih =>
    rw [List.dropWhile_cons]
    by_cases hc : jsWs c = true
    · rw [if_pos hc]
      exact Nat.le_succ_of_le ih
    · rw [if_neg hc]

/-- Trimming trailing whitespace never lengthens a string. -/
theorem trimEnd_length_le (s : List Char) :
    (trimEnd s).length ≤ s.length := by
  unfold trimEnd
  rw [List.length_reverse]
  calc (s.reverse.dropWhile jsWs).length
      ≤ s.reverse.length := trimStart_length_le s.reverse
    _ = s.length := List.length_reverse s

/-- Every chunk the loop emits is at most `maxLen` characters long. -/
theorem chunkGo_le (maxLen : Nat) : ∀ (fuel : Nat) (t c : List Char),
    c ∈ chunkGo maxLen fuel t → c.length ≤ maxLen := by
  intro fuel
  induction fuel with
  | zero => intro t c hc; simp [chunkGo] at hc
  | succ f ih =>
    intro t c hc
    unfold chunkGo at hc
    by_cases hle : t.length ≤ maxLen
    · rw [if_pos hle] at hc
      by_cases hz : t.length = 0
      · rw [if_pos hz] at hc
        simp at hc
      · rw [if_neg hz] at hc
        rw [List.mem_singleton.mp hc]
        exact hle
    · rw [if_neg hle] at hc
      replace hc : c ∈ trimEnd (t.take (findBreakpoint t maxLen)) ::
          chunkGo maxLen f (trimStart (t.drop (findBreakpoint t maxLen))) := hc
      rcases List.mem_cons.mp hc with h1 | h2
      · rw [h1]
        calc (trimEnd (t.take (findBreakpoint t maxLen))).length
            ≤ (t.take (findBreakpoint t maxLen)).length :=
              trimEnd_length_le _
          _ ≤ findBreakpoint t maxLen := by
              rw [List.length_take]; omega
          _ ≤ maxLen := findBreakpoint_le t maxLen
      · exact ih _ _ h2

/-! ### Claim C6: singleton below the limit; chunk length bound -/

/-- C6: a text at or under the limit is returned as the singleton list of
itself, and every chunk produced for any text is at most `maxLen`
characters long (for a positive limit, where the loop terminates). -/
theorem c6_chunk_bounds :
    (∀ (text : List Char) (maxLen : Nat), 1 ≤ maxLen →
      text.length ≤ maxLen → chunkText text maxLen = [text]) ∧
    (∀ (text : List Char) (maxLen : Nat) (c : List Char), 1 ≤ maxLen →
      c ∈ chunkText text maxLen → c.length ≤ maxLen) := by
  constructor
  · intro text maxLen _ hlen
    unfold chunkText
    rw [if_pos hlen]
  · intro text maxLen c _ hc
    unfold chunkText at hc
    by_cases hle : text.length ≤ maxLen
    · rw [if_pos hle] at hc
      rw [List.mem_singleton.mp hc]
      exact hle
    · rw [if_neg hle] at hc
      exact chunkGo_le maxLen _ _ _ hc

/-- Witness for `c6_chunk_bounds` at the text `"abc"` and limit 10. -/
theorem c6_chunk_bounds_witness :
    chunkText "abc".toList 10 = ["abc".toList] ∧ "abc".toList.length ≤ 10 := by
  have h1 := c6_chunk_bounds.1 "abc".toList 10 (by decide) (by decide)
  have h2 := c6_chunk_bounds.2 "abc".toList 10 "abc".toList (by decide)
    (by rw [h1]; exact List.mem_singleton.mpr rfl)
  exact ⟨h1, h2⟩

/-! ### Claim C10: termination of the chunking loop -/

/-- C10: the breakpoint is always at least 1 when the limit is positive, so
each loop iteration strictly shortens the remaining text; consequently the
loop needs no more than `text.length` iterations — any fuel of at least
`text.length` computes the same result as fuel exactly `text.length`, i.e.
the recursion terminates. -/
theorem c10_termination :
    (∀ (text : List Char) (maxLen : Nat), 1 ≤ maxLen →
      1 ≤ findBreakpoint text maxLen) ∧
    (∀ (maxLen : Nat), 1 ≤ maxLen → ∀ (fuel : Nat) (text : List Char),
      text.length ≤ fuel →
      chunkGo maxLen fuel text = chunkGo maxLen text.length text) := by
  constructor
  · exact findBreakpoint_pos
  · intro maxLen h
    have aux : ∀ f1 f2 (t : List Char), t.length ≤ f1 → t.length ≤ f2 →
        chunkGo maxLen f1 t = chunkGo maxLen f2 t := by
      intro f1
      induction f1 with
      | zero =>
        intro f2 t h1 _
        have ht : t = [] := List.eq_nil_of_length_eq_zero (by omega)
        subst ht
        cases f2 with
        | zero => rfl
        | succ f => simp [chunkGo]
      | succ f1' ih =>
        intro f2 t h1 h2
        cases f2 with
        | zero =>
          have ht : t = [] := List.eq_nil_of_length_eq_zero (by omega)
          subst ht
          simp [chunkGo]
        | succ f2' =>
          show (if t.length ≤ maxLen then
              if t.length = 0 then [] else [t]
            else
              trimEnd (t.take (findBreakpoint t maxLen)) ::
                chunkGo maxLen f1' (trimStart (t.drop (findBreakpoint t maxLen))))
            = (if t.length ≤ maxLen then
              if t.length = 0 then [] else [t]
            else
              trimEnd (t.take (findBreakpoint t maxLen)) ::
                chunkGo maxLen f2' (trimStart (t.drop (findBreakpoint t maxLen))))
          by_cases hle : t.length ≤ maxLen
          · rw [if_pos hle, if_pos hle]
          · rw [if_neg hle, if_neg hle]
            have hbp := findBreakpoint_pos t maxLen h
            have hdrop : (t.drop (findBreakpoint t maxLen)).length
                = t.length - findBreakpoint t maxLen := List.length_drop _ _
            have hshort : (trimStart (t.drop (findBreakpoint t maxLen))).length
                ≤ t.length - 1 := by
              have := trimStart_length_le (t.drop (findBreakpoint t maxLen))
              omega
            congr 1
            exact ih f2' _ (by omega) (by omega)
    intro fuel text hf
    exact aux fuel text.length text hf (Nat.le_refl _)

/-- Witness for `c10_termination` on a concrete text and limit 5. -/
theorem c10_termination_witness :
    1 ≤ findBreakpoint "hello world, this is text".toList 5 ∧
    chunkGo 5 30 "hello world, this is text".toList
      = chunkGo 5 "hello world, this is text".toList.length
          "hello world, this is text".toList := by
  exact ⟨c10_termination.1 "hello world, this is text".toList 5 (by decide),
    c10_termination.2 5 (by decide) 30 "hello world, this is text".toList
      (by decide)⟩

/-! ### Claim C3: code fences and chunking -/

/-- Counterexample to C3 as stated: for the text `"` ++ "```" ++ `\nab cd ef gh"`
with limit 10, the candidate slice opens a fence at position 0, so there is
no newline preceding the fence-open and the fence guard cannot fire; the
word-boundary cut splits inside the fenced block and the first emitted chunk
contains exactly one fence marker — an odd count. -/
theorem c3_counterexample :
    chunkText "```\nab cd ef gh".toList 10
      = ["```\nab cd".toList, "ef gh".toList] ∧
    countFences "```\nab cd".toList % 2 = 1 := by
  exact ⟨rfl, rfl⟩

/-- C3, amended: the fence guard holds exactly as implemented — whenever the
candidate slice has an odd count of code-fence markers and the last
occurrence of a newline followed by three backticks sits at a positive
index, `findBreakpoint` cuts there, immediately before the newline that
precedes the fence-open, so that cut never splits the fenced block. (The
universal no-odd-fence-chunk property fails when a fence opens at the very
start of the slice or fences are unbalanced, see `c3_counterexample`.) -/
theorem c3_fence_cut (text : List Char) (maxLen i : Nat)
    (hodd : countFences (text.take maxLen) % 2 = 1)
    (hlast : lastOccur "\n```".toList (text.take maxLen) = some i)
    (hpos : 0 < i) :
    findBreakpoint text maxLen = i := by
  have hf : fenceCut (text.take maxLen) = some i := by
    unfold fenceCut
    rw [if_pos hodd, hlast]
    show (if 0 < i then some i else none) = some i
    rw [if_pos hpos]
  unfold findBreakpoint
  rw [hf]

/-- Witness for `c3_fence_cut` on a concrete slice with an odd fence count. -/
theorem c3_fence_cut_witness :
    countFences ("za\n```\ncode xx yy".toList.take 14) % 2 = 1 ∧
    lastOccur "\n```".toList ("za\n```\ncode xx yy".toList.take 14) = some 2 ∧
    findBreakpoint "za\n```\ncode xx yy".toList 14 = 2 := by
  exact ⟨rfl, rfl,
    c3_fence_cut "za\n```\ncode xx yy".toList 14 2 rfl rfl (by decide)⟩

/-! ### Claim C4: rate-limiter token bounds -/


/-- A successful association-list lookup returns a stored pair. -/
theorem lookup_mem : ∀ {st : LimiterState} {k : String} {b : Bucket},
    st.lookup k = some b → (k, b) ∈ st := by
  intro st
  induction st with
  | nil => intro k b h; cases h
  | cons kv rest ih =>
    intro k b h
    obtain ⟨k', b'⟩ := kv
    rw [List.lookup] at h
    cases hbeq : (k == k') with
    | true =>
      rw [hbeq] at h
      replace h : some b' = some b := h
      injection h with hb
      have hk : k = k' := by simpa using hbeq
      subst hk
      subst hb
      exact List.mem_cons_self _ _
    | false =>
      rw [hbeq] at h
      replace h : rest.lookup k = some b := h
      exact List.mem_cons_of_mem _ (ih h)

/-- Every pair of `setBucket st k b` is either the new bucket or was already
stored. -/
theorem setBucket_mem {st : LimiterState} {k : String} {b : Bucket}
    {q : String × Bucket} (h : q ∈ setBucket st k b) : q.2 = b ∨ q ∈ st := by
  unfold setBucket at h
  obtain ⟨kv, hkv, hq⟩ := List.mem_map.mp h
  by_cases hk : kv.1 = k
  · rw [if_pos hk] at hq
    left
    rw [← hq]
  · rw [if_neg hk] at hq
    right
    rw [← hq]
    exact hkv

/-- Storing a well-formed bucket preserves state well-formedness. -/
theorem setBucket_ok {t : Rat} {st : LimiterState} {k : String} {b : Bucket}
    (hst : StateOk t st) (hb : BucketOkAt t b) :
    StateOk t (setBucket st k b) := by
  intro q hq
  rcases setBucket_mem hq with h1 | h2
  · show BucketOkAt t q.2
    rw [h1]
    exact hb
  · exact hst q h2

/-- Well-formedness is stable under advancing the clock. -/
theorem StateOk_mono {t t' : Rat} {st : LimiterState} (h : StateOk t st)
    (hle : t ≤ t') : StateOk t' st := by
  intro q hq
  obtain ⟨h1, h2, h3, h4⟩ := h q hq
  exact ⟨h1, h2, h3, le_trans h4 hle⟩

/-- The bucket `getBucket` returns is well formed, for a nonnegative
capacity. -/
theorem getBucket_fst_ok (st : LimiterState) (k : String) (m now : Rat)
    (h : StateOk now st) (hm : 0 ≤ m) :
    BucketOkAt now (getBucket st k m now).1 := by
  unfold getBucket
  cases hl : st.lookup k with
  | some b => exact h (k, b) (lookup_mem hl)
  | none =>
    exact ⟨hm, le_refl m, div_nonneg hm (by norm_num), le_refl now⟩

/-- The state `getBucket` returns is well formed, for a nonnegative
capacity. -/
theorem getBucket_snd_ok (st : LimiterState) (k : String) (m now : Rat)
    (h : StateOk now st) (hm : 0 ≤ m) :
    StateOk now (getBucket st k m now).2 := by
  unfold getBucket
  cases hl : st.lookup k with
  | some b => exact h
  | none =>
    intro q hq
    rcases List.mem_append.mp hq with h1 | h2
    · exact h q h1
    · show BucketOkAt now q.2
      rw [List.mem_singleton.mp h2]
      exact ⟨hm, le_refl m, div_nonneg hm (by norm_num), le_refl now⟩

/-- Refilling keeps a bucket well formed and preserves its capacity. -/
theorem refill_ok {b : Bucket} {now : Rat} (hb : BucketOkAt now b) :
    BucketOkAt now (refill b now) ∧ (refill b now).maxTokens = b.maxTokens := by
  obtain ⟨h0, h1, h2, h3⟩ := hb
  refine ⟨⟨?_, ?_, h2, le_refl now⟩, rfl⟩
  · exact le_min (le_trans h0 h1)
      (le_trans h0 (le_add_of_nonneg_right
        (mul_nonneg (sub_nonneg.mpr h3) h2)))
  · exact min_le_left _ _

/-- One public operation keeps the limiter state well formed; the operation
finishes no earlier than it started. -/
theorem applyOp_ok (st : LimiterState) (now : Rat) (op : LimiterOp)
    (h : StateOk now st) (hcap : opCapNonneg op)
    (hrem : opRemainingNonneg op) :
    StateOk (applyOp st now op).2 (applyOp st now op).1 ∧
      now ≤ (applyOp st now op).2 := by
  have hcan : ∀ (k : String) (m : Rat), 0 ≤ m →
      StateOk now (canConsume st k m now).2 := by
    intro k m hm
    unfold canConsume
    exact setBucket_ok (getBucket_snd_ok st k m now h hm)
      (refill_ok (getBucket_fst_ok st k m now h hm)).1
  have hcons : ∀ (st' : LimiterState) (k : String) (m t : Rat),
      StateOk t st' → 0 ≤ m → StateOk t (consume st' k m t).2 := by
    intro st' k m t hst' hm
    unfold consume
    have hbok := (refill_ok (getBucket_fst_ok st' k m t hst' hm)).1
    have hsnd := getBucket_snd_ok st' k m t hst' hm
    by_cases hge : 1 ≤ (refill (getBucket st' k m t).1 t).tokens
    · rw [if_pos hge]
      refine setBucket_ok hsnd ⟨?_, ?_, hbok.2.2.1, hbok.2.2.2⟩
      · show 0 ≤ (refill (getBucket st' k m t).1 t).tokens - 1
        have h01 : (0 : Rat) ≤ 1 := by norm_num
        linarith
      · show (refill (getBucket st' k m t).1 t).tokens - 1 ≤
          (refill (getBucket st' k m t).1 t).maxTokens
        have := hbok.2.1
        linarith
    · rw [if_neg hge]
      exact setBucket_ok hsnd hbok
  have hms : ∀ (k : String) (m : Rat), 0 ≤ m →
      StateOk now (msUntilAvailable st k m now).2 := by
    intro k m hm
    unfold msUntilAvailable
    have hbok := (refill_ok (getBucket_fst_ok st k m now h hm)).1
    have hsnd := getBucket_snd_ok st k m now h hm
    by_cases hge : 1 ≤ (refill (getBucket st k m now).1 now).tokens
    · rw [if_pos hge]
      exact setBucket_ok hsnd hbok
    · rw [if_neg hge]
      exact setBucket_ok hsnd hbok
  cases op with
  | canConsume k m =>
    exact ⟨hcan k m hcap, le_refl now⟩
  | consume k m =>
    exact ⟨hcons st k m now h hcap, le_refl now⟩
  | msUntilAvailable k m =>
    exact ⟨hms k m hcap, le_refl now⟩
  | updateFromHeaders k m r =>
    refine ⟨?_, le_refl now⟩
    show StateOk now (updateFromHeaders st k m r now)
    unfold updateFromHeaders
    have hbok := getBucket_fst_ok st k m now h hcap
    have hsnd := getBucket_snd_ok st k m now h hcap
    refine setBucket_ok hsnd ⟨?_, ?_, hbok.2.2.1, le_refl now⟩
    · exact le_min hrem (le_trans hbok.1 hbok.2.1)
    · exact min_le_right _ _
  | waitForSlot k m =>
    have hms' := hms k m hcap
    refine ⟨?_, ?_⟩
    · show StateOk
        (if 0 < (msUntilAvailable st k m now).1 then
          now + ((msUntilAvailable st k m now).1 : Rat) else now)
        (consume (msUntilAvailable st k m now).2 k m
          (if 0 < (msUntilAvailable st k m now).1 then
            now + ((msUntilAvailable st k m now).1 : Rat) else now)).2
      by_cases hw : 0 < (msUntilAvailable st k m now).1
      · rw [if_pos hw]
        have ht : now ≤ now + ((msUntilAvailable st k m now).1 : Rat) := by
          have hc : (0 : Rat) < ((msUntilAvailable st k m now).1 : Rat) := by
            exact_mod_cast hw
          linarith
        exact hcons _ k m _ (StateOk_mono hms' ht) hcap
      · rw [if_neg hw]
        exact hcons _ k m _ hms' hcap
    · show now ≤ (if 0 < (msUntilAvailable st k m now).1 then
          now + ((msUntilAvailable st k m now).1 : Rat) else now)
      by_cases hw : 0 < (msUntilAvailable st k m now).1
      · rw [if_pos hw]
        have hc : (0 : Rat) < ((msUntilAvailable st k m now).1 : Rat) := by
          exact_mod_cast hw
        linarith
      · rw [if_neg hw]

/-- Running any operation list preserves well-formedness at some final
time. -/
theorem runOps_ok : ∀ (ops : List (Rat × LimiterOp)) (st : LimiterState)
    (clock : Rat), StateOk clock st →
    (∀ p ∈ ops, opCapNonneg p.2) → (∀ p ∈ ops, opRemainingNonneg p.2) →
    ∃ t, StateOk t (runOps st clock ops) := by
  intro ops
  induction ops with
  | nil => intro st clock h _ _; exact ⟨clock, h⟩
  | cons p rest ih =>
    intro st clock h hcap hrem
    obtain ⟨t, op⟩ := p
    have hmax : StateOk (max clock t) st := StateOk_mono h (le_max_left _ _)
    have hop := applyOp_ok st (max clock t) op hmax
      (hcap _ (List.mem_cons_self _ _)) (hrem _ (List.mem_cons_self _ _))
    exact ih _ _ hop.1
      (fun q hq => hcap q (List.mem_cons_of_mem _ hq))
      (fun q hq => hrem q (List.mem_cons_of_mem _ hq))

/-- C4, amended: starting from any well-formed limiter state, every sequence
of public RateLimiter operations with nonnegative capacities, in which every
`updateFromHeaders` reports a nonnegative `remaining`, keeps every bucket's
token count within `[0, capacity]`. (For a negative reported `remaining`,
`updateFromHeaders` writes `min(remaining, capacity)`, which is negative —
see `c4_counterexample`.) -/
theorem c4_token_bounds (ops : List (Rat × LimiterOp)) (clock : Rat)
    (st : LimiterState) (hst : StateOk clock st)
    (hcap : ∀ p ∈ ops, opCapNonneg p.2)
    (hrem : ∀ p ∈ ops, opRemainingNonneg p.2) :
    ∀ q ∈ runOps st clock ops, 0 ≤ q.2.tokens ∧ q.2.tokens ≤ q.2.maxTokens := by
  obtain ⟨t, ht⟩ := runOps_ok ops st clock hst hcap hrem
  intro q hq
  exact ⟨(ht q hq).1, (ht q hq).2.1⟩

/-- Counterexample to C4 as stated: `updateFromHeaders("global", 120, -1)`
on a fresh limiter leaves the bucket holding `min(-1, 120) = -1` tokens,
strictly below zero. -/
theorem c4_counterexample :
    ((runOps [] 0 [((0 : Rat), LimiterOp.updateFromHeaders "global" 120 (-1))]).lookup
        "global").map Bucket.tokens = some (-1) ∧
    ¬ (0 : Rat) ≤ (-1 : Rat) := by
  constructor
  · decide
  · norm_num

/-- Witness for `c4_token_bounds`: one `updateFromHeaders` with nonnegative
`remaining` on a fresh limiter keeps the bucket within bounds. -/
theorem c4_token_bounds_witness :
    0 ≤ (min (7 : Rat) 120) ∧ (min (7 : Rat) 120) ≤ (120 : Rat) := by
  have h := c4_token_bounds [((0 : Rat), LimiterOp.updateFromHeaders "k" 120 7)]
    0 [] (by intro q hq; exact absurd hq (List.not_mem_nil q))
    (by intro p hp
        rw [List.mem_singleton.mp hp]
        show (0 : Rat) ≤ 120
        norm_num)
    (by intro p hp
        rw [List.mem_singleton.mp hp]
        show (0 : Rat) ≤ 7
        norm_num)
  exact h ("k", Bucket.mk (min (7 : Rat) 120) 120 ((120 : Rat)/60000) 0)
    (List.mem_singleton.mpr rfl)

/-! ### Claim C5: 429 retry and ApiError propagation -/

/-- C5: each 429 response causes exactly one retry of the identical request
after the server-indicated delay (`Retry-After` seconds when finite and
positive, else the default 5 seconds); every other non-2xx, non-204 status
is not auto-retried and the call throws `ApiError` carrying the status, the
body text, and the path. -/
theorem c5_retry_and_error (path : String) (r : WireResponse)
    (rest : List WireResponse) :
    (r.status = 429 →
      request path (r :: rest) =
        { outcome := (request path rest).outcome,
          delaysMs := (retryDelaySec r * 1000) :: (request path rest).delaysMs,
          headerUpdates := headerUpdatesOf r ++ (request path rest).headerUpdates,
          attempts := (request path rest).attempts + 1 }) ∧
    (r.status ≠ 429 → r.status ≠ 204 → ¬(200 ≤ r.status ∧ r.status < 300) →
      request path (r :: rest) =
        { outcome := .apiError r.status r.body path, delaysMs := [],
          headerUpdates := headerUpdatesOf r, attempts := 1 }) := by
  constructor
  · intro h
    simp only [request]
    rw [if_pos h]
  · intro h1 h2 h3
    simp only [request]
    rw [if_neg h1, if_neg h2, if_neg h3]

/-- Witness for `c5_retry_and_error`: a 429 with `Retry-After: 3` followed
by a 500 produces one 3000 ms retry delay, two attempts, and the ApiError
of the 500. -/
theorem c5_retry_and_error_witness :
    request "/p" [⟨429, some 3, none, "slow down"⟩, ⟨500, none, some 7, "boom"⟩]
      = { outcome := .apiError 500 "boom" "/p", delaysMs := [3000],
          headerUpdates := [7], attempts := 2 } := by
  have h1 := (c5_retry_and_error "/p" ⟨429, some 3, none, "slow down"⟩
    [⟨500, none, some 7, "boom"⟩]).1 rfl
  have h2 := (c5_retry_and_error "/p" ⟨500, none, some 7, "boom"⟩ []).2
    (by decide) (by decide) (by decide)
  rw [h1, h2]
  decide

/-! ### Claim C7: gateway operations after stop() -/

/-- Counterexample to C7 as stated: after `stop()` (which clears the
runtime map) a `sendText` does not behave as a no-op — `getRuntime` throws
`Error('Gateway not started')` on the empty map. (The single-account
channel variant guards identically: `if (!outbound) throw new
Error('Gateway not started')`.) -/
theorem c7_counterexample :
    runGatewayOp (stopChannel [("default", ⟨"default", "u1"⟩)])
      (.sendText "c1" "hi" none none) = .error "Gateway not started" := rfl

/-- C7, amended: every gateway operation issued after `stop()` (on the
cleared runtime state) throws `Error('Gateway not started')` without
reaching the platform, rather than behaving as a silent no-op. -/
theorem c7_post_stop (runtimes : RuntimeMap) (op : GatewayOp) :
    runGatewayOp (stopChannel runtimes) op = .error "Gateway not started" := by
  have hget : ∀ acct, getRuntime (stopChannel runtimes) acct
      = .error "Gateway not started" := by
    intro acct
    have hv : viaKeyLookup (stopChannel runtimes) acct = none := by
      cases acct with
      | none => rfl
      | some id =>
        show (if id = "" then (none : Option AccountRuntime)
          else List.lookup id ([] : RuntimeMap)) = none
        by_cases hid : id = ""
        · rw [if_pos hid]
        · rw [if_neg hid]
          rfl
    unfold getRuntime
    rw [hv]
    rfl
  cases op <;>
    · simp only [runGatewayOp]
      rw [hget]
      rfl
